import Mathlib

/-!
Verification of the job-search assistant repository (modules
application_tracker.py, chat_interface.py, company_research.py,
job_search.py) against its natural-language specification.

The Python modules are shallowly embedded: dict-backed records become
structures or association lists, file writes become an explicit `file`
component of the tracker state, the nondeterministic completion-API calls
become explicit outcome parameters, and Python string operations are
re-implemented over `List Char` so that every definition evaluates by
kernel reduction.
-/

/-! ## Python string primitives over `List Char`

`leadsWith a b` is `b.startswith(a)`, `containsSeq sub l` is `sub in l`,
`splitSeqAux` is `str.split(sep)` (non-overlapping leftmost matches; the
fuel argument bounds the recursion by the input length and is never
exhausted when it starts at the input length), `pyStrip` is `str.strip()`,
`pyWords` is no-argument `str.split()`, `pyLower` is `str.lower()`
(per-character, as Python does for ASCII). -/

def leadsWith : List Char → List Char → Bool
  | [], _ => true
  | _ :: _, [] => false
  | a :: as, b :: bs => a = b && leadsWith as bs

def containsSeq (sub : List Char) : List Char → Bool
  | [] => sub.isEmpty
  | c :: rest => leadsWith sub (c :: rest) || containsSeq sub rest

/-- Python `sub in s` (substring containment). -/
def pyContains (s sub : String) : Bool := containsSeq sub.data s.data

/-- Python `s.lower()`. -/
def pyLower (s : String) : String := ⟨s.data.map Char.toLower⟩

/-- Python `s.strip()`. -/
def pyStrip (s : String) : String :=
  ⟨((s.data.dropWhile Char.isWhitespace).reverse.dropWhile Char.isWhitespace).reverse⟩

def splitSeqAux (sep : List Char) : Nat → List Char → List (List Char)
  | _, [] => [[]]
  | 0, l => [l]
  | fuel + 1, c :: rest =>
    if !sep.isEmpty && leadsWith sep (c :: rest) then
      [] :: splitSeqAux sep fuel (List.drop (sep.length - 1) rest)
    else
      match splitSeqAux sep fuel rest with
      | b :: bs => (c :: b) :: bs
      | [] => [[c]]

/-- Python `s.split(sep)` for a non-empty separator. -/
def pySplit (s sep : String) : List String :=
  (splitSeqAux sep.data s.data.length s.data).map (fun cs => ⟨cs⟩)

def splitChar (p : Char → Bool) : List Char → List (List Char)
  | [] => [[]]
  | c :: rest =>
    if p c then [] :: splitChar p rest
    else
      match splitChar p rest with
      | b :: bs => (c :: b) :: bs
      | [] => [[c]]

/-- Python no-argument `s.split()`: whitespace-delimited words, no empties. -/
def pyWords (s : String) : List String :=
  ((splitChar Char.isWhitespace s.data).filter (fun cs => !cs.isEmpty)).map (fun cs => ⟨cs⟩)

/-! ## Application tracker (modules/application_tracker.py)

An application record carries the fields `add_application` creates.  The
timestamps written by `datetime.now().isoformat()` are passed in as a
`now : String` parameter.  The tracker state pairs the in-memory list
`self.applications` with the JSON file contents `file`; `_save_applications`
(modelled as succeeding) makes `file` a copy of the in-memory list.
`update_application` merges an arbitrary dict into the record, modelled as
an arbitrary record transformer `u`, after which `last_updated` is
overwritten. -/

structure Application where
  id : Nat
  company : Option String
  position : Option String
  status : String
  applied_date : String
  last_updated : String
  notes : String
  url : String
  salary_range : String
  location : String
  contact_info : String
  follow_up_dates : List (String × String)
deriving Repr, DecidableEq

/-- The `application_data` dict passed to `add_application`; `company` and
`position` are read with `.get(key)` (so possibly absent), the remaining
fields with `.get(key, "")`. -/
structure ApplicationData where
  company : Option String
  position : Option String
  notes : String
  url : String
  salary_range : String
  location : String
  contact_info : String
deriving Repr, DecidableEq

structure TrackerState where
  applications : List Application
  file : List Application
deriving Repr, DecidableEq

/-- `ApplicationTracker.add_application`: builds the record with
`id = len(self.applications) + 1`, appends it and saves. -/
def add_application (st : TrackerState) (d : ApplicationData) (now : String) :
    Application × TrackerState :=
  let application : Application :=
    { id := st.applications.length + 1
      company := d.company
      position := d.position
      status := "applied"
      applied_date := now
      last_updated := now
      notes := d.notes
      url := d.url
      salary_range := d.salary_range
      location := d.location
      contact_info := d.contact_info
      follow_up_dates := [] }
  let apps := st.applications ++ [application]
  (application, ⟨apps, apps⟩)

/-- The `for app in self.applications: if app["id"] == app_id` loop of
`update_application`: update the first record with the given id in place. -/
def updateFirst (u : Application → Application) (now : String) (app_id : Nat) :
    List Application → Option (Application × List Application)
  | [] => none
  | a :: rest =>
    if a.id = app_id then
      some ({ u a with last_updated := now }, { u a with last_updated := now } :: rest)
    else
      (updateFirst u now app_id rest).map (fun p => (p.1, a :: p.2))

/-- `ApplicationTracker.update_application`: on a hit, merge and save; on a
miss, return `None` without saving. -/
def update_application (st : TrackerState) (app_id : Nat) (u : Application → Application)
    (now : String) : Option Application × TrackerState :=
  match updateFirst u now app_id st.applications with
  | some (a, apps) => (some a, ⟨apps, apps⟩)
  | none => (none, st)

/-- `ApplicationTracker.get_application`: first record with the given id. -/
def get_application (st : TrackerState) (app_id : Nat) : Option Application :=
  st.applications.find? (fun a => a.id = app_id)

/-- The `pop` of the first record with the given id in `delete_application`. -/
def deleteFirst (app_id : Nat) : List Application → Option (List Application)
  | [] => none
  | a :: rest =>
    if a.id = app_id then some rest
    else (deleteFirst app_id rest).map (fun l => a :: l)

/-- `ApplicationTracker.delete_application`: on a hit, remove and save; on a
miss, return `False` without saving. -/
def delete_application (st : TrackerState) (app_id : Nat) : Bool × TrackerState :=
  match deleteFirst app_id st.applications with
  | some apps => (true, ⟨apps, apps⟩)
  | none => (false, st)

/-- The follow-up mutation of `add_follow_up`: append a `{date, note}` entry
to the first record with the given id, then save. -/
def followFirst (now note : String) (app_id : Nat) :
    List Application → Option (Application × List Application)
  | [] => none
  | a :: rest =>
    if a.id = app_id then
      some ({ a with follow_up_dates := a.follow_up_dates ++ [(now, note)] },
            { a with follow_up_dates := a.follow_up_dates ++ [(now, note)] } :: rest)
    else
      (followFirst now note app_id rest).map (fun p => (p.1, a :: p.2))

/-- `ApplicationTracker.add_follow_up`. -/
def add_follow_up (st : TrackerState) (app_id : Nat) (note now : String) :
    Option Application × TrackerState :=
  match followFirst now note app_id st.applications with
  | some (a, apps) => (some a, ⟨apps, apps⟩)
  | none => (none, st)

/-- The `statuses[status] = statuses.get(status, 0) + 1` dict update. -/
def bumpStatus : List (String × Nat) → String → List (String × Nat)
  | [], s => [(s, 1)]
  | (t, n) :: r, s => if t = s then (t, n + 1) :: r else (t, n) :: bumpStatus r s

/-- Python `statuses.get(s, 0)` on the breakdown dict. -/
def lookupCount : List (String × Nat) → String → Nat
  | [], _ => 0
  | (t, n) :: r, s => if t = s then n else lookupCount r s

/-- Total of the per-status counts of the breakdown dict. -/
def sumCounts : List (String × Nat) → Nat
  | [] => 0
  | (_, n) :: r => n + sumCounts r

/-- The status-counting loop of `get_application_statistics`. -/
def statusBreakdown (apps : List Application) : List (String × Nat) :=
  apps.foldl (fun m a => bumpStatus m a.status) []

/-- Number of applications with the given status (used to state claims). -/
def statusCount : List Application → String → Nat
  | [], _ => 0
  | a :: r, s => (if a.status = s then 1 else 0) + statusCount r s

structure Stats where
  total_applications : Nat
  status_breakdown : List (String × Nat)
  success_rate : ℚ
deriving Repr, DecidableEq

/-- `ApplicationTracker.get_application_statistics`; the float division is
modelled over `ℚ`. -/
def get_application_statistics (apps : List Application) : Stats :=
  let total := apps.length
  let statuses := statusBreakdown apps
  { total_applications := total
    status_breakdown := statuses
    success_rate :=
      if total > 0 then (lookupCount statuses "accepted" : ℚ) / (total : ℚ) else 0 }

/-- One state-changing tracker call (the operations that may write the file). -/
inductive TrackerOp
  | addOp (d : ApplicationData) (now : String)
  | updateOp (app_id : Nat) (u : Application → Application) (now : String)
  | deleteOp (app_id : Nat)
  | followOp (app_id : Nat) (note now : String)

def applyOp (st : TrackerState) : TrackerOp → TrackerState
  | .addOp d now => (add_application st d now).2
  | .updateOp i u now => (update_application st i u now).2
  | .deleteOp i => (delete_application st i).2
  | .followOp i note now => (add_follow_up st i note now).2

/-! ## Shared concrete inputs for witnesses and counterexamples -/

def sampleData : ApplicationData := ⟨some "Acme", some "Dev", "", "", "", "", ""⟩

def sampleApp : Application :=
  ⟨1, some "Acme", some "Dev", "applied", "t1", "t1", "", "", "", "", "", []⟩

def sampleState : TrackerState := ⟨[sampleApp], [sampleApp]⟩

def idsOf (l : List Application) : List Nat := l.map Application.id

/-! ## C1: auto-incrementing ids -/

def c1_afterTwoAdds : TrackerState :=
  (add_application (add_application ⟨[], []⟩ sampleData "t1").2 sampleData "t2").2

def c1_afterDelete : TrackerState := (delete_application c1_afterTwoAdds 1).2

/-- C1, counterexample: after add, add, delete id 1, the store holds exactly
one application, with id 2, and the next `add_application` assigns the new
record id 2 as well — not distinct from every id already in the store. -/
theorem add_application_id_collision :
    idsOf c1_afterDelete.applications = [2] ∧
    (add_application c1_afterDelete sampleData "t4").1.id = 2 := by
  decide

/-- C1, amended: `add_application` assigns the new record
`id = len(applications) + 1`; whenever every stored id is at most the store
size — as in any delete-free history, where the ids are exactly 1..n — that
id is distinct from the id of every application already in the store. -/
theorem add_application_fresh_id (st : TrackerState) (d : ApplicationData) (now : String)
    (h : ∀ a ∈ st.applications, a.id ≤ st.applications.length) :
    ∀ a ∈ st.applications, a.id ≠ (add_application st d now).1.id := by
  intro a ha
  have hle := h a ha
  simp only [add_application]
  omega

/-- C1, witness for the amended theorem at a one-application store. -/
theorem add_application_fresh_id_witness :
    sampleApp.id ≠ (add_application sampleState sampleData "t2").1.id :=
  add_application_fresh_id sampleState sampleData "t2" (by decide) sampleApp (by decide)

/-! ## C5: persistence is whole-file rewrite, not append-only -/

def c5_afterAdd : TrackerState := (add_application ⟨[], []⟩ sampleData "t1").2

/-- C5, counterexample: the record persisted by `add_application` is no
longer present in the JSON file after `delete_application` — the write is
not append-only. -/
theorem save_not_append_only :
    (add_application ⟨[], []⟩ sampleData "t1").1 ∈ c5_afterAdd.file ∧
    (delete_application c5_afterAdd 1).2.file = [] := by
  decide

/-- C5, amended: every saving operation rewrites the JSON file to the
current in-memory list (`json.dump` of `self.applications`), so after any
tracker operation, starting from a synchronized state, the file again equals
the in-memory list; deletes remove and updates change previously persisted
records rather than leaving them untouched. -/
theorem save_rewrites_file (st : TrackerState) (op : TrackerOp)
    (h : st.file = st.applications) :
    (applyOp st op).file = (applyOp st op).applications := by
  cases op with
  | addOp d now => rfl
  | updateOp i u now =>
    simp only [applyOp, update_application]
    cases updateFirst u now i st.applications with
    | none => simpa using h
    | some p => rcases p with ⟨a, apps⟩; rfl
  | deleteOp i =>
    simp only [applyOp, delete_application]
    cases deleteFirst i st.applications with
    | none => simpa using h
    | some apps => rfl
  | followOp i note now =>
    simp only [applyOp, add_follow_up]
    cases followFirst now note i st.applications with
    | none => simpa using h
    | some p => rcases p with ⟨a, apps⟩; rfl

/-- C5, witness for the amended theorem: a concrete delete on a synchronized
one-application state. -/
theorem save_rewrites_file_witness :
    (applyOp sampleState (TrackerOp.deleteOp 1)).file =
      (applyOp sampleState (TrackerOp.deleteOp 1)).applications :=
  save_rewrites_file sampleState (TrackerOp.deleteOp 1) (by decide)

/-! ## C8: update and delete on a missing id -/

theorem updateFirst_none (u : Application → Application) (now : String) (i : Nat)
    (l : List Application) (h : ∀ a ∈ l, a.id ≠ i) : updateFirst u now i l = none := by
  induction l with
  | nil => rfl
  | cons a rest ih =>
    have ha : a.id ≠ i := h a (List.mem_cons_self a rest)
    simp only [updateFirst, if_neg ha]
    rw [ih fun b hb => h b (List.mem_cons_of_mem a hb)]
    rfl

theorem deleteFirst_none (i : Nat) (l : List Application)
    (h : ∀ a ∈ l, a.id ≠ i) : deleteFirst i l = none := by
  induction l with
  | nil => rfl
  | cons a rest ih =>
    have ha : a.id ≠ i := h a (List.mem_cons_self a rest)
    simp only [deleteFirst, if_neg ha]
    rw [ih fun b hb => h b (List.mem_cons_of_mem a hb)]
    rfl

/-- C8: when no stored application has the requested id,
`update_application` returns `None`, `delete_application` returns `False`,
and both leave the in-memory list and the persisted file untouched (no save
happens: the state is returned unchanged). -/
theorem missing_id_no_change (st : TrackerState) (i : Nat)
    (u : Application → Application) (now : String)
    (h : ∀ a ∈ st.applications, a.id ≠ i) :
    update_application st i u now = (none, st) ∧ delete_application st i = (false, st) := by
  constructor
  · simp only [update_application, updateFirst_none u now i st.applications h]
  · simp only [delete_application, deleteFirst_none i st.applications h]

/-- C8, witness: updating and deleting the absent id 5 on a concrete
one-application state. -/
theorem missing_id_no_change_witness :
    update_application sampleState 5 id "t9" = (none, sampleState) ∧
    delete_application sampleState 5 = (false, sampleState) :=
  missing_id_no_change sampleState 5 id "t9" (by decide)

/-! ## C9: statistics never divide by zero -/

theorem lookupCount_bumpStatus (m : List (String × Nat)) (s₀ s : String) :
    lookupCount (bumpStatus m s₀) s = lookupCount m s + (if s₀ = s then 1 else 0) := by
  induction m with
  | nil =>
    by_cases hs : s₀ = s <;> simp [bumpStatus, lookupCount, hs]
  | cons p r ih =>
    rcases p with ⟨t, n⟩
    by_cases ht : t = s₀
    · subst ht
      by_cases hs : t = s <;> simp [bumpStatus, lookupCount, hs]
    · by_cases hs : t = s
      · subst hs
        have : ¬ s₀ = t := fun hh => ht hh.symm
        simp [bumpStatus, lookupCount, ht, this]
      · simp [bumpStatus, lookupCount, ht, hs, ih]

theorem sumCounts_bumpStatus (m : List (String × Nat)) (s₀ : String) :
    sumCounts (bumpStatus m s₀) = sumCounts m + 1 := by
  induction m with
  | nil => rfl
  | cons p r ih =>
    rcases p with ⟨t, n⟩
    by_cases ht : t = s₀
    · simp only [bumpStatus, if_pos ht, sumCounts]
      omega
    · simp only [bumpStatus, if_neg ht, sumCounts, ih]
      omega

theorem lookupCount_statusFold (l : List Application) :
    ∀ (m : List (String × Nat)) (s : String),
      lookupCount (l.foldl (fun m a => bumpStatus m a.status) m) s =
        lookupCount m s + statusCount l s := by
  induction l with
  | nil => intro m s; simp [statusCount]
  | cons a r ih =>
    intro m s
    simp only [List.foldl_cons, statusCount]
    rw [ih, lookupCount_bumpStatus]
    by_cases hs : a.status = s
    · simp only [if_pos hs]
      omega
    · simp only [if_neg hs]
      omega

theorem sumCounts_statusFold (l : List Application) :
    ∀ m : List (String × Nat),
      sumCounts (l.foldl (fun m a => bumpStatus m a.status) m) = sumCounts m + l.length := by
  induction l with
  | nil => intro m; simp
  | cons a r ih =>
    intro m
    simp only [List.foldl_cons, List.length_cons]
    rw [ih, sumCounts_bumpStatus]
    omega

/-- C9: `get_application_statistics` never divides by zero — on an empty
store the success rate is the literal 0, otherwise it is the number of
applications with status "accepted" divided by the total, and the counts in
the status breakdown always sum to the total. -/
theorem statistics_safe (apps : List Application) :
    (apps = [] → (get_application_statistics apps).success_rate = 0) ∧
    (apps ≠ [] →
      (get_application_statistics apps).success_rate =
        (statusCount apps "accepted" : ℚ) / (apps.length : ℚ)) ∧
    sumCounts (get_application_statistics apps).status_breakdown = apps.length := by
  refine ⟨?_, ?_, ?_⟩
  · intro h; subst h; rfl
  · intro h
    have hlen : 0 < apps.length := List.length_pos.mpr h
    have hbd : lookupCount (statusBreakdown apps) "accepted" = statusCount apps "accepted" := by
      rw [statusBreakdown, lookupCount_statusFold]
      simp [lookupCount]
    simp only [get_application_statistics, if_pos hlen, hbd]
  · rw [get_application_statistics]
    simp only [statusBreakdown]
    rw [sumCounts_statusFold]
    simp [sumCounts]

/-- C9, witness: the empty store yields rate 0; a concrete one-application
store yields the accepted-count over total quotient. -/
theorem statistics_safe_witness :
    (get_application_statistics []).success_rate = 0 ∧
    (get_application_statistics [sampleApp]).success_rate =
      (statusCount [sampleApp] "accepted" : ℚ) / (([sampleApp] : List Application).length : ℚ) :=
  ⟨(statistics_safe []).1 rfl, (statistics_safe [sampleApp]).2.1 (by decide)⟩

/-! ## Chat interface (modules/chat_interface.py)

`_analyze_intent` asks the completion API to classify the user input.  The
nondeterministic call is a `CompletionOutcome` parameter: the call can raise,
or reply with a text whose `json.loads` result is either a parsed value
(`some`, covering any JSON shape: a JSON object becomes `AnalyzedIntent.obj`
with the `type`, `company` and `data` keys it actually carries, any non-object
JSON value becomes `nonObject`) or `none` when the text is not valid JSON, in
which case the keyword fallback runs on the stripped, lowercased text.

`process_user_input` reads `intent["type"]` and dispatches through its
`if`/`elif` chain; a KeyError/TypeError on a missing key or non-dict intent
is caught by the surrounding `except`, which replies with an apology message
(`Route.errorReply`) instead of invoking any collaborator. -/

/-- Shape of `_extract_application_data`'s result: `{}`, `{"add": {}}`,
`{"update": {"id": None, "changes": {}}}` or `{"view": True}`. -/
inductive TrackData
  | emptyReq
  | addReq
  | updateReq
  | viewReq
deriving Repr, DecidableEq

/-- A JSON object returned by the classifier: the `type`, `company` and
`data` keys, each possibly absent. -/
structure IntentDict where
  type : Option String
  company : Option String
  data : Option TrackData
deriving Repr, DecidableEq

inductive AnalyzedIntent
  | obj (d : IntentDict)
  | nonObject
deriving Repr, DecidableEq

/-- The completion call inside `_analyze_intent`: it raises, or replies with
a text whose JSON parse is `parsed` (`none` when the text is not valid JSON). -/
inductive CompletionOutcome
  | raised
  | replied (text : String) (parsed : Option AnalyzedIntent)

/-- `ChatInterface._extract_company_name`: when `"company:"` occurs in the
lowercased text, take the part after the first `"company:"`, strip it, and
return its first whitespace-separated word; `none` models the IndexError
raised when no word follows (or when `"company:"` is found only in the
lowercased copy).  Otherwise return the empty string. -/
def extract_company_name (t : String) : Option String :=
  if pyContains (pyLower t) "company:" then
    match (pySplit t "company:")[1]? with
    | some rest => (pyWords (pyStrip rest)).head?
    | none => none
  else
    some ""

/-- `ChatInterface._extract_application_data`. -/
def extract_application_data (t : String) : TrackData :=
  if pyContains (pyLower t) "add application" then .addReq
  else if pyContains (pyLower t) "update application" then .updateReq
  else if pyContains (pyLower t) "view applications" then .viewReq
  else .emptyReq

/-- The keyword fallback of `_analyze_intent`, run on the stripped lowercased
reply when it is not valid JSON.  An IndexError escaping
`_extract_company_name` is caught by the outer handler, which returns the
general intent. -/
def analyze_fallback (t : String) : AnalyzedIntent :=
  if pyContains t "search" && pyContains t "job" then
    .obj ⟨some "search_jobs", none, none⟩
  else if pyContains t "company" then
    match extract_company_name t with
    | some c => .obj ⟨some "company_info", some c, none⟩
    | none => .obj ⟨some "general", none, none⟩
  else if pyContains t "application" || pyContains t "track" then
    .obj ⟨some "track_application", none, some (extract_application_data t)⟩
  else if pyContains t "stat" then
    .obj ⟨some "get_stats", none, none⟩
  else
    .obj ⟨some "general", none, none⟩

/-- `intent_text.strip()` followed by `.lower()`, the text the fallback sees. -/
def fallbackText (reply : String) : String := pyLower (pyStrip reply)

/-- `ChatInterface._analyze_intent` as a function of the completion outcome. -/
def analyze_intent : CompletionOutcome → AnalyzedIntent
  | .raised => .obj ⟨some "general", none, none⟩
  | .replied text parsed =>
    match parsed with
    | some v => v
    | none => analyze_fallback (fallbackText text)

/-- Which collaborator (if any) `process_user_input` hands the turn to. -/
inductive Route
  | jobSearchHandler
  | companyResearchHandler (company : String)
  | trackingHandler (data : TrackData)
  | statsHandler
  | generalHandler
  | errorReply
deriving Repr, DecidableEq

/-- The dispatch of `ChatInterface.process_user_input`: the `if`/`elif`
chain over `intent["type"]`; a missing key or non-dict intent raises inside
the `try` and is answered with the apology message. -/
def process_user_input (intent : AnalyzedIntent) : Route :=
  match intent with
  | .nonObject => .errorReply
  | .obj d =>
    match d.type with
    | none => .errorReply
    | some ty =>
      if ty = "search_jobs" then .jobSearchHandler
      else if ty = "company_info" then
        match d.company with
        | some c => .companyResearchHandler c
        | none => .errorReply
      else if ty = "track_application" then
        match d.data with
        | some dat => .trackingHandler dat
        | none => .errorReply
      else if ty = "get_stats" then .statsHandler
      else .generalHandler

/-! ## C3: the keyword fallback rule -/

/-- C3, counterexample: the non-JSON reply "company:" contains "company", so
the claimed rule classifies it as company_info with the extracted name; the
code instead hits an IndexError in `_extract_company_name` (nothing follows
"company:") which the outer handler turns into the general intent. -/
theorem fallback_company_extraction_raises :
    pyContains (fallbackText "company:") "company" = true ∧
    analyze_intent (.replied "company:" none) = .obj ⟨some "general", none, none⟩ := by
  decide

/-- C3, amended: when the completion call raises the intent is general, and
when the reply is not valid JSON the fallback applies the claimed ordered
keyword rule to the stripped lowercased reply — except that in the company
branch, when `"company:"` occurs with no word after it, the extraction
raises and the intent is general rather than company_info. -/
theorem fallback_keyword_rule (reply : String) :
    (analyze_intent .raised = .obj ⟨some "general", none, none⟩) ∧
    ((pyContains (fallbackText reply) "search" && pyContains (fallbackText reply) "job") = true →
      analyze_intent (.replied reply none) = .obj ⟨some "search_jobs", none, none⟩) ∧
    (∀ c : String,
      (pyContains (fallbackText reply) "search" && pyContains (fallbackText reply) "job") = false →
      pyContains (fallbackText reply) "company" = true →
      extract_company_name (fallbackText reply) = some c →
      analyze_intent (.replied reply none) = .obj ⟨some "company_info", some c, none⟩) ∧
    ((pyContains (fallbackText reply) "search" && pyContains (fallbackText reply) "job") = false →
      pyContains (fallbackText reply) "company" = true →
      extract_company_name (fallbackText reply) = none →
      analyze_intent (.replied reply none) = .obj ⟨some "general", none, none⟩) ∧
    ((pyContains (fallbackText reply) "search" && pyContains (fallbackText reply) "job") = false →
      pyContains (fallbackText reply) "company" = false →
      (pyContains (fallbackText reply) "application" || pyContains (fallbackText reply) "track") = true →
      analyze_intent (.replied reply none) =
        .obj ⟨some "track_application", none, some (extract_application_data (fallbackText reply))⟩) ∧
    ((pyContains (fallbackText reply) "search" && pyContains (fallbackText reply) "job") = false →
      pyContains (fallbackText reply) "company" = false →
      (pyContains (fallbackText reply) "application" || pyContains (fallbackText reply) "track") = false →
      pyContains (fallbackText reply) "stat" = true →
      analyze_intent (.replied reply none) = .obj ⟨some "get_stats", none, none⟩) ∧
    ((pyContains (fallbackText reply) "search" && pyContains (fallbackText reply) "job") = false →
      pyContains (fallbackText reply) "company" = false →
      (pyContains (fallbackText reply) "application" || pyContains (fallbackText reply) "track") = false →
      pyContains (fallbackText reply) "stat" = false →
      analyze_intent (.replied reply none) = .obj ⟨some "general", none, none⟩) := by
  refine ⟨rfl, ?_, ?_, ?_, ?_, ?_, ?_⟩
  · intro h1
    simp [analyze_intent, analyze_fallback, h1]
  · intro c h1 h2 h3
    simp [analyze_intent, analyze_fallback, h1, h2, h3]
  · intro h1 h2 h3
    simp [analyze_intent, analyze_fallback, h1, h2, h3]
  · intro h1 h2 h3
    simp [analyze_intent, analyze_fallback, h1, h2, h3]
  · intro h1 h2 h3 h4
    simp [analyze_intent, analyze_fallback, h1, h2, h3, h4]
  · intro h1 h2 h3 h4
    simp [analyze_intent, analyze_fallback, h1, h2, h3, h4]

/-- C3, witness: one concrete reply per branch of the amended rule. -/
theorem fallback_keyword_rule_witness :
    analyze_intent (.replied "search job" none) = .obj ⟨some "search_jobs", none, none⟩ ∧
    analyze_intent (.replied "company: acme" none) = .obj ⟨some "company_info", some "acme", none⟩ ∧
    analyze_intent (.replied "track" none) =
      .obj ⟨some "track_application", none, some (extract_application_data (fallbackText "track"))⟩ ∧
    analyze_intent (.replied "stats" none) = .obj ⟨some "get_stats", none, none⟩ ∧
    analyze_intent (.replied "hello" none) = .obj ⟨some "general", none, none⟩ :=
  ⟨(fallback_keyword_rule "search job").2.1 (by decide),
   (fallback_keyword_rule "company: acme").2.2.1 "acme" (by decide) (by decide) (by decide),
   (fallback_keyword_rule "track").2.2.2.2.1 (by decide) (by decide) (by decide),
   (fallback_keyword_rule "stats").2.2.2.2.2.1 (by decide) (by decide) (by decide) (by decide),
   (fallback_keyword_rule "hello").2.2.2.2.2.2 (by decide) (by decide) (by decide) (by decide)⟩

/-! ## C2: intent dispatch -/

/-- C2, counterexample: the valid-JSON reply "\x7b\"type\": \"company_info\"\x7d"
classifies the turn as company_info but carries no company key, so
`intent["company"]` raises KeyError and `process_user_input` answers with the
apology message instead of dispatching to the company researcher. -/
theorem process_missing_company_errors :
    process_user_input (analyze_intent (.replied "\x7b\"type\": \"company_info\"\x7d"
      (some (.obj ⟨some "company_info", none, none⟩)))) = Route.errorReply := by
  decide

/-- C2, amended: `process_user_input` dispatches search_jobs to the job
searcher, company_info (with a company field) to the company researcher,
track_application (with a data field) to the tracker, get_stats to the
statistics handler and every other type to the general handler — every
fallback-classified intent dispatches cleanly — but a JSON-classified intent
whose object lacks the field its handler reads raises and is answered with
the apology message instead. -/
theorem process_dispatch :
    (∀ d : IntentDict, d.type = some "search_jobs" →
      process_user_input (.obj d) = .jobSearchHandler) ∧
    (∀ (d : IntentDict) (c : String), d.type = some "company_info" → d.company = some c →
      process_user_input (.obj d) = .companyResearchHandler c) ∧
    (∀ (d : IntentDict) (t : TrackData), d.type = some "track_application" → d.data = some t →
      process_user_input (.obj d) = .trackingHandler t) ∧
    (∀ d : IntentDict, d.type = some "get_stats" →
      process_user_input (.obj d) = .statsHandler) ∧
    (∀ (d : IntentDict) (ty : String), d.type = some ty →
      ty ≠ "search_jobs" → ty ≠ "company_info" → ty ≠ "track_application" → ty ≠ "get_stats" →
      process_user_input (.obj d) = .generalHandler) ∧
    (∀ d : IntentDict, d.type = some "company_info" → d.company = none →
      process_user_input (.obj d) = .errorReply) ∧
    (∀ d : IntentDict, d.type = some "track_application" → d.data = none →
      process_user_input (.obj d) = .errorReply) ∧
    (∀ t : String, process_user_input (analyze_fallback t) ≠ .errorReply) := by
  refine ⟨?_, ?_, ?_, ?_, ?_, ?_, ?_, ?_⟩
  · intro d h
    simp [process_user_input, h]
  · intro d c h hc
    simp [process_user_input, h, hc]
  · intro d t h hd
    simp [process_user_input, h, hd]
  · intro d h
    simp [process_user_input, h]
  · intro d ty h h1 h2 h3 h4
    simp [process_user_input, h, h1, h2, h3, h4]
  · intro d h hc
    simp [process_user_input, h, hc]
  · intro d h hd
    simp [process_user_input, h, hd]
  · intro t
    unfold analyze_fallback
    split
    · simp [process_user_input]
    · split
      · split <;> simp [process_user_input]
      · split
        · simp [process_user_input]
        · split <;> simp [process_user_input]

/-- C2, witness: one concrete intent per dispatch clause. -/
theorem process_dispatch_witness :
    process_user_input (.obj ⟨some "search_jobs", none, none⟩) = .jobSearchHandler ∧
    process_user_input (.obj ⟨some "company_info", some "Acme", none⟩) =
      .companyResearchHandler "Acme" ∧
    process_user_input (.obj ⟨some "track_application", none, some .viewReq⟩) =
      .trackingHandler .viewReq ∧
    process_user_input (.obj ⟨some "get_stats", none, none⟩) = .statsHandler ∧
    process_user_input (.obj ⟨some "chitchat", none, none⟩) = .generalHandler ∧
    process_user_input (.obj ⟨some "company_info", none, none⟩) = .errorReply ∧
    process_user_input (analyze_fallback "hello") ≠ .errorReply :=
  ⟨process_dispatch.1 ⟨some "search_jobs", none, none⟩ rfl,
   process_dispatch.2.1 ⟨some "company_info", some "Acme", none⟩ "Acme" rfl rfl,
   process_dispatch.2.2.1 ⟨some "track_application", none, some .viewReq⟩ .viewReq rfl rfl,
   process_dispatch.2.2.2.1 ⟨some "get_stats", none, none⟩ rfl,
   process_dispatch.2.2.2.2.1 ⟨some "chitchat", none, none⟩ "chitchat" rfl
     (by decide) (by decide) (by decide) (by decide),
   process_dispatch.2.2.2.2.2.1 ⟨some "company_info", none, none⟩ rfl rfl,
   process_dispatch.2.2.2.2.2.2.2 "hello"⟩

/-! ## Company research (modules/company_research.py)

`research_company` first checks `self.company_cache`; on a miss it launches
the three completion requests and merges them with `_analyze_company_data`,
caches the merged bundle and returns it; if the gathering raises, it returns
a `{company_name, error, status: "failed"}` dict without touching the cache.
The nondeterministic network phase is a `FetchOutcome` parameter (each of
the three sub-requests catches its own exceptions and always yields a text,
so a non-raising fetch yields the three texts); the event-loop timestamp is
a `now : Nat` parameter.  The third component of the result records whether
the completion requests were issued at all (`false` on a cache hit). -/

inductive ResearchResult
  | bundle (overview recent_developments culture_and_benefits : String)
      (analysis_timestamp : Nat) (data_freshness : String)
  | failure (company_name error status : String)
deriving Repr, DecidableEq

structure ResearcherState where
  company_cache : List (String × ResearchResult)
deriving Repr, DecidableEq

/-- Outcome of the `aiohttp` session plus `asyncio.gather` phase. -/
inductive FetchOutcome
  | ok (overview recent_news culture : String)
  | raisedGather

/-- Python `self.company_cache.get(name)` / `name in self.company_cache`. -/
def lookupCache : List (String × ResearchResult) → String → Option ResearchResult
  | [], _ => none
  | (k, v) :: r, n => if k = n then some v else lookupCache r n

/-- Python `self.company_cache[name] = info`. -/
def insertCache : List (String × ResearchResult) → String → ResearchResult →
    List (String × ResearchResult)
  | [], n, v => [(n, v)]
  | (k, w) :: r, n, v => if k = n then (k, v) :: r else (k, w) :: insertCache r n v

/-- `CompanyResearcher._analyze_company_data`: merge the three texts into the
research bundle (each sub-request always returns its key, so the `.get`
defaults never fire). -/
def analyze_company_data (overview recent_news culture : String) (now : Nat) :
    ResearchResult :=
  .bundle overview recent_news culture now "24h"

/-- `CompanyResearcher.research_company`.  Result, new state, and whether
the completion requests were issued. -/
def research_company (st : ResearcherState) (company_name : String)
    (fetch : FetchOutcome) (now : Nat) : ResearchResult × ResearcherState × Bool :=
  match lookupCache st.company_cache company_name with
  | some info => (info, st, false)
  | none =>
    match fetch with
    | .ok o n c =>
      let info := analyze_company_data o n c now
      (info, ⟨insertCache st.company_cache company_name info⟩, true)
    | .raisedGather =>
      (.failure company_name "Unable to gather company information" "failed", st, true)

/-- `CompanyResearcher.get_cached_research`. -/
def get_cached_research (st : ResearcherState) (company_name : String) :
    Option ResearchResult :=
  lookupCache st.company_cache company_name

theorem lookupCache_insertCache_self (m : List (String × ResearchResult))
    (n : String) (v : ResearchResult) : lookupCache (insertCache m n v) n = some v := by
  induction m with
  | nil => simp [insertCache, lookupCache]
  | cons p r ih =>
    rcases p with ⟨k, w⟩
    by_cases hk : k = n
    · simp [insertCache, lookupCache, hk]
    · simp [insertCache, lookupCache, hk, ih]

theorem lookupCache_insertCache_other (m : List (String × ResearchResult))
    (n k : String) (v : ResearchResult) (h : k ≠ n) :
    lookupCache (insertCache m n v) k = lookupCache m k := by
  induction m with
  | nil =>
    have hne : ¬ n = k := fun hh => h hh.symm
    simp [insertCache, lookupCache, hne]
  | cons p r ih =>
    rcases p with ⟨k₀, w⟩
    by_cases hk : k₀ = n
    · subst hk
      have hne : ¬ k₀ = k := fun hh => h hh.symm
      simp [insertCache, lookupCache, hne]
    · simp only [insertCache, if_neg hk, lookupCache]
      by_cases hk2 : k₀ = k
      · simp [hk2]
      · simp [hk2, ih]

/-! ## C4: successful research is cached per company name -/

/-- C4: on a cache miss, a successful `research_company` returns the merged
{overview, recent_developments, culture_and_benefits} bundle and stores it
under the company name (`get_cached_research` returns that same bundle); any
state holding a cached value for a name returns it on a further
`research_company` call without issuing completion requests, and every
`research_company` call on any name preserves existing cache entries. -/
theorem research_company_caches (st : ResearcherState) (name : String)
    (o n c : String) (now : Nat)
    (hmiss : get_cached_research st name = none) :
    (research_company st name (.ok o n c) now).1 = .bundle o n c now "24h" ∧
    get_cached_research (research_company st name (.ok o n c) now).2.1 name =
      some ((research_company st name (.ok o n c) now).1) ∧
    (∀ (st2 : ResearcherState) (name2 : String) (v : ResearchResult)
        (f : FetchOutcome) (now2 : Nat),
      get_cached_research st2 name2 = some v →
      research_company st2 name2 f now2 = (v, st2, false)) ∧
    (∀ (st2 : ResearcherState) (name2 : String) (v : ResearchResult)
        (m : String) (f : FetchOutcome) (now2 : Nat),
      get_cached_research st2 name2 = some v →
      get_cached_research (research_company st2 m f now2).2.1 name2 = some v) := by
  have hmiss2 : lookupCache st.company_cache name = none := hmiss
  refine ⟨?_, ?_, ?_, ?_⟩
  · simp [research_company, hmiss2, analyze_company_data]
  · simp [research_company, get_cached_research, hmiss2, analyze_company_data,
      lookupCache_insertCache_self]
  · intro st2 name2 v f now2 hhit
    have hhit2 : lookupCache st2.company_cache name2 = some v := hhit
    simp [research_company, hhit2]
  · intro st2 name2 v m f now2 hhit
    have hhit2 : lookupCache st2.company_cache name2 = some v := hhit
    rcases hcase : lookupCache st2.company_cache m with _ | w
    · cases f with
      | ok o2 n2 c2 =>
        have hne : name2 ≠ m := by
          intro he
          rw [he] at hhit2
          rw [hhit2] at hcase
          cases hcase
        simp [research_company, get_cached_research, hcase,
          lookupCache_insertCache_other _ _ _ _ hne, hhit2]
      | raisedGather =>
        simp [research_company, get_cached_research, hcase, hhit2]
    · simp [research_company, get_cached_research, hcase, hhit2]

/-- C4, witness: researching "Acme" on an empty cache stores and returns the
merged bundle. -/
theorem research_company_caches_witness :
    (research_company ⟨[]⟩ "Acme" (.ok "o" "n" "c") 7).1 = .bundle "o" "n" "c" 7 "24h" ∧
    get_cached_research (research_company ⟨[]⟩ "Acme" (.ok "o" "n" "c") 7).2.1 "Acme" =
      some ((research_company ⟨[]⟩ "Acme" (.ok "o" "n" "c") 7).1) :=
  ⟨(research_company_caches ⟨[]⟩ "Acme" "o" "n" "c" 7 (by decide)).1,
   (research_company_caches ⟨[]⟩ "Acme" "o" "n" "c" 7 (by decide)).2.1⟩

/-! ## C10: failed research is never cached -/

/-- C10: on a cache miss, a failing `research_company` returns the
{company_name, error, status: "failed"} record and leaves the state — hence
the cache entry for that name — unchanged, so a subsequent call with the
same name runs the research again (the completion requests are issued and a
fresh bundle is returned) rather than returning the failure record. -/
theorem research_failure_not_cached (st : ResearcherState) (name : String) (now : Nat)
    (hmiss : get_cached_research st name = none) :
    research_company st name .raisedGather now =
      (.failure name "Unable to gather company information" "failed", st, true) ∧
    (∀ (o n c : String) (now2 : Nat),
      research_company st name (.ok o n c) now2 =
        (.bundle o n c now2 "24h",
         ⟨insertCache st.company_cache name (.bundle o n c now2 "24h")⟩, true)) := by
  have hmiss2 : lookupCache st.company_cache name = none := hmiss
  refine ⟨?_, ?_⟩
  · simp [research_company, hmiss2]
  · intro o n c now2
    simp [research_company, hmiss2, analyze_company_data]

/-- C10, witness: a failing research of "Acme" on the empty cache returns
the failure record and the unchanged empty state; retrying succeeds. -/
theorem research_failure_not_cached_witness :
    research_company ⟨[]⟩ "Acme" .raisedGather 3 =
      (.failure "Acme" "Unable to gather company information" "failed", ⟨[]⟩, true) ∧
    research_company ⟨[]⟩ "Acme" (.ok "o" "n" "c") 4 =
      (.bundle "o" "n" "c" 4 "24h",
       ⟨insertCache ([] : List (String × ResearchResult)) "Acme" (.bundle "o" "n" "c" 4 "24h")⟩,
       true) :=
  ⟨(research_failure_not_cached ⟨[]⟩ "Acme" 3 (by decide)).1,
   (research_failure_not_cached ⟨[]⟩ "Acme" 3 (by decide)).2 "o" "n" "c" 4⟩

/-! ## Job search (modules/job_search.py)

`_parse_job_listings` folds over the reply's lines (split on newline, each
stripped): a blank line emits the current dict when it is non-empty and has
the four required fields, and resets it; a line containing a colon stores
`value.strip()` under `key.strip().lower()` (first colon only); other lines
are skipped.  After the loop the final dict is emitted under the same
condition.  Dicts are association lists with in-place update, preserving
insertion order like Python dicts.

`_score_and_rank_jobs` gives each job one point per resume skill whose
lowercased text occurs in the lowercased description and half a point per
experience entry one of whose lowercased whitespace-separated words occurs
there, then sorts by score, descending and stable — exactly Python
`sorted(key=..., reverse=True)`.  The float scores are multiples of 0.5 and
exactly representable, so they are modelled by `ℚ`. -/

/-- A Python dict with string keys and values, in insertion order. -/
abbrev Record := List (String × String)

/-- Python `d[k] = v`: update in place, else append. -/
def setField : Record → String → String → Record
  | [], k, v => [(k, v)]
  | (k₀, v₀) :: r, k, v =>
    if k₀ = k then (k, v) :: r else (k₀, v₀) :: setField r k v

/-- Python `k in d`. -/
def hasField : Record → String → Bool
  | [], _ => false
  | (k₀, _) :: r, k => k₀ = k || hasField r k

/-- Python `d.get(k)`. -/
def getField : Record → String → Option String
  | [], _ => none
  | (k₀, v₀) :: r, k => if k₀ = k then some v₀ else getField r k

/-- Python `line.split(':', 1)` guarded by `':' in line`: `none` when the
line has no colon, otherwise the parts before and after the first colon. -/
def splitFirstColon : List Char → Option (List Char × List Char)
  | [] => none
  | c :: rest =>
    if c = ':' then some ([], rest)
    else (splitFirstColon rest).map (fun p => (c :: p.1, p.2))

/-- One iteration of the `_parse_job_listings` loop body on a non-blank
line: store the stripped value under the stripped lowercased key, or skip
the line when it has no colon. -/
def procLine (cur : Record) (line : String) : Record :=
  match splitFirstColon (pyStrip line).data with
  | some p => setField cur (pyLower (pyStrip ⟨p.1⟩)) (pyStrip ⟨p.2⟩)
  | none => cur

def isBlankLine (line : String) : Bool := (pyStrip line).data.isEmpty

/-- `all(field in current_job for field in required_fields)`. -/
def hasRequired (r : Record) : Bool :=
  hasField r "title" && hasField r "company" && hasField r "location" &&
    hasField r "description"

/-- The `_parse_job_listings` loop with its accumulated current dict,
including the final emission after the loop. -/
def parseLines : List String → Record → List Record
  | [], cur => if !cur.isEmpty && hasRequired cur then [cur] else []
  | line :: rest, cur =>
    if isBlankLine line then
      (if !cur.isEmpty && hasRequired cur then [cur] else []) ++ parseLines rest []
    else
      parseLines rest (procLine cur line)

/-- `JobSearcher._parse_job_listings`. -/
def parse_job_listings (response_text : String) : List Record :=
  parseLines (pySplit response_text "\n") []

/-- Specification-side decomposition of the reply into blocks at blank
lines: the chunks of lines between blank lines, in order (chunks may be
empty when blank lines are adjacent). -/
def splitBlanks : List String → List (List String)
  | [] => [[]]
  | l :: ls =>
    if isBlankLine l then [] :: splitBlanks ls
    else
      match splitBlanks ls with
      | b :: bs => (l :: b) :: bs
      | [] => [[l]]

/-- Specification-side record of one block: its "Key: Value" lines read in
order into a fresh dict. -/
def recordOfBlock (b : List String) : Record := b.foldl procLine []

theorem splitBlanks_ne_nil (ls : List String) : splitBlanks ls ≠ [] := by
  cases ls with
  | nil => simp [splitBlanks]
  | cons l ls =>
    simp only [splitBlanks]
    split
    · simp
    · split <;> simp

theorem emit_cond_eq (r : Record) : (!r.isEmpty && hasRequired r) = hasRequired r := by
  cases r with
  | nil => simp [hasRequired, hasField]
  | cons p rest => simp

theorem parseLines_eq (ls : List String) : ∀ cur : Record,
    parseLines ls cur =
      match splitBlanks ls with
      | b :: bs =>
        ((b.foldl procLine cur) :: bs.map recordOfBlock).filter
          (fun r => !r.isEmpty && hasRequired r)
      | [] => [] := by
  induction ls with
  | nil =>
    intro cur
    simp only [parseLines, splitBlanks, List.foldl_nil, List.map_nil, List.filter_cons,
      List.filter_nil]
  | cons l rest ih =>
    intro cur
    obtain ⟨b, bs, hsb⟩ : ∃ b bs, splitBlanks rest = b :: bs := by
      rcases hsb2 : splitBlanks rest with _ | ⟨b, bs⟩
      · exact absurd hsb2 (splitBlanks_ne_nil rest)
      · exact ⟨b, bs, rfl⟩
    by_cases hb : isBlankLine l = true
    · simp only [parseLines, splitBlanks, hb, if_true]
      rw [ih [], hsb]
      simp only [List.foldl_nil, List.map_cons, List.filter_cons, recordOfBlock]
      by_cases hc : (!cur.isEmpty && hasRequired cur) = true
      · simp [hc]
      · simp [hc]
    · simp only [parseLines, splitBlanks, hb, if_false, Bool.false_eq_true]
      rw [ih (procLine cur l), hsb]
      simp [List.foldl_cons]

/-- C7: `_parse_job_listings` splits the reply into blocks at blank lines,
reads the "Key: Value" lines of each block into a record under lowercased
keys, and emits a block's record exactly when it carries all four required
fields title, company, location and description — so no emitted record ever
lacks one of them. -/
theorem parse_job_listings_blocks (response_text : String) :
    parse_job_listings response_text =
      ((splitBlanks (pySplit response_text "\n")).map recordOfBlock).filter hasRequired := by
  rw [parse_job_listings, parseLines_eq]
  obtain ⟨b, bs, hsb⟩ : ∃ b bs, splitBlanks (pySplit response_text "\n") = b :: bs := by
    rcases hsb2 : splitBlanks (pySplit response_text "\n") with _ | ⟨b, bs⟩
    · exact absurd hsb2 (splitBlanks_ne_nil _)
    · exact ⟨b, bs, rfl⟩
  rw [hsb]
  simp only [List.map_cons, recordOfBlock]
  exact List.filter_congr (fun r _ => emit_cond_eq r)

/-! ## Job scoring and ranking -/

/-- A parsed job: its textual fields plus the `match_score` key, absent
until `_score_and_rank_jobs` sets it. -/
structure Job where
  fields : Record
  match_score : Option ℚ
deriving DecidableEq

structure ResumeData where
  skills : List String
  experience : List String
deriving Repr, DecidableEq

/-- Python `job.get('description', '')`. -/
def job_description (j : Job) : String := (getField j.fields "description").getD ""

/-- The skills loop: one point per resume skill whose lowercased text occurs
in the (lowercased) description. -/
def skill_points (skills : List String) (desc : String) : Nat :=
  skills.countP (fun s => pyContains desc (pyLower s))

/-- The experience loop: half a point (counted here) per experience entry at
least one of whose lowercased whitespace-separated words occurs in the
(lowercased) description. -/
def exp_points (experience : List String) (desc : String) : Nat :=
  experience.countP (fun e => (pyWords (pyLower e)).any (fun w => pyContains desc w))

/-- The score `_score_and_rank_jobs` computes for one job. -/
def job_match_score (r : ResumeData) (j : Job) : ℚ :=
  (skill_points r.skills (pyLower (job_description j)) : ℚ) +
    (exp_points r.experience (pyLower (job_description j)) : ℚ) / 2

/-- `job['match_score'] = score`. -/
def score_job (r : ResumeData) (j : Job) : Job :=
  { j with match_score := some (job_match_score r j) }

/-- The sort key `x.get('match_score', 0)`. -/
def scoreKey (j : Job) : ℚ := j.match_score.getD 0

/-- The comparator realizing `sorted(..., reverse=True)`: `a` may precede
`b` when `b`'s key is at most `a`'s. -/
def rankLe (a b : Job) : Bool := decide (scoreKey b ≤ scoreKey a)

/-- `JobSearcher._score_and_rank_jobs`: score every job, then sort by score
descending (stable merge sort, matching Python's stable `sorted`). -/
def score_and_rank_jobs (jobs : List Job) (resume_data : ResumeData) : List Job :=
  (jobs.map (score_job resume_data)).mergeSort rankLe

/-- C6: every scored job's match_score is the number of matching skills plus
half the number of matching experience entries, and the returned list is a
permutation of the scored input jobs ordered by non-increasing match_score. -/
theorem score_and_rank_jobs_spec (jobs : List Job) (r : ResumeData) :
    (∀ j : Job, (score_job r j).match_score =
      some ((skill_points r.skills (pyLower (job_description j)) : ℚ) +
        (exp_points r.experience (pyLower (job_description j)) : ℚ) / 2)) ∧
    (score_and_rank_jobs jobs r).Perm (jobs.map (score_job r)) ∧
    (score_and_rank_jobs jobs r).Pairwise (fun a b => scoreKey b ≤ scoreKey a) := by
  have htrans : ∀ a b c : Job, rankLe a b = true → rankLe b c = true → rankLe a c = true := by
    intro a b c hab hbc
    exact decide_eq_true (le_trans (of_decide_eq_true hbc) (of_decide_eq_true hab))
  have htotal : ∀ a b : Job, (rankLe a b || rankLe b a) = true := by
    intro a b
    simp only [rankLe, Bool.or_eq_true, decide_eq_true_eq]
    exact le_total (scoreKey b) (scoreKey a)
  refine ⟨fun j => rfl, List.mergeSort_perm _ _, ?_⟩
  exact (List.sorted_mergeSort htrans htotal (jobs.map (score_job r))).imp
    (fun hab => of_decide_eq_true hab)
